import Mathlib

/-!
# Reward calculator: snapshot records, store abstraction and IPC client

A shallow embedding of the Go sources `core/db_iissdata.go`, `common/db/*.go`,
`common/signature.go`, `cmd/sendipc/cli_calculate.go` and `cmd/dbtool/db_claimbackup.go`.

Conventions of the embedding:

* a Go `[]byte` is a `List Nat` (`Bytes`); a slice that may be `nil` is an `Option Bytes`;
* a Go `error` is an `Option Err` (`none` is `nil`);
* `uint64` values are `Nat`, bounded by `2 ^ 64` where the bound matters;
* a Go function that can panic returns an `Outcome`;
* an interface value that may be `nil` is an `Option` of a structure of methods;
* functions of packages whose source is not part of the excerpt (`codec`, `crypto`,
  `common.Uint64ToBytes`, the `ipc` connection, the storage engines) are parameters.
-/

namespace RewardCalculator

/-! ## Basic types -/

/-- A Go byte slice. -/
abbrev Bytes := List Nat

/-- A non-nil Go `error`. -/
abbrev Err := String

/-- Why a Go function panicked. -/
inductive PanicReason where
  | nilDereference
  | sliceOutOfRange
  | unknownBackend (backend : Bytes)
  | initError (err : Err)
  deriving DecidableEq

/-- The result of running a Go function that either returns or panics. -/
inductive Outcome (α : Type) where
  | ret (a : α)
  | panicked (reason : PanicReason)
  deriving DecidableEq

/-- Every byte of the slice is below 256. -/
def validBytes (bs : Bytes) : Prop := ∀ b ∈ bs, b < 256

instance (bs : Bytes) : Decidable (validBytes bs) := by
  unfold validBytes; infer_instance

/-- Lexicographic byte order, `bytes.Compare(a, b) < 0`. -/
def bytesLt : Bytes → Bytes → Bool
  | [], [] => false
  | [], _ :: _ => true
  | _ :: _, [] => false
  | a :: as, b :: bs => decide (a < b) || (a == b && bytesLt as bs)

/-- The number a byte string denotes when read big-endian. -/
def beValue : Bytes → Nat
  | [] => 0
  | b :: bs => b * 256 ^ bs.length + beValue bs

/-- Go's builtin `copy(dst, src)`: the contents of `dst` afterwards. -/
def copy (dst src : Bytes) : Bytes := src.take dst.length ++ dst.drop src.length

/-! ## Package `common` (integer/byte helpers, not part of the excerpt) -/

/-- The two integer helpers of package `common` used by the record keys. -/
structure Common where
  Uint64ToBytes : Nat → Bytes
  BytesToUint64 : Bytes → Nat

/-- The assumption on `common.Uint64ToBytes`: the big-endian bytes of the value,
at most 8 of them. -/
def BigEndianAtMost8 (f : Nat → Bytes) : Prop :=
  ∀ v, v < 2 ^ 64 → (f v).length ≤ 8 ∧ validBytes (f v) ∧ beValue (f v) = v

/-- The assumption on `common.BytesToUint64`: an 8-byte string is read big-endian. -/
def DecodesBigEndian8 (g : Bytes → Nat) : Prop :=
  ∀ bs, bs.length = 8 → validBytes bs → g bs = beValue bs

/-- A reference instance of the helpers: fixed-width big-endian encoding and decoding. -/
def refCommon : Common where
  Uint64ToBytes := fun v =>
    [v / 256 ^ 7 % 256, v / 256 ^ 6 % 256, v / 256 ^ 5 % 256, v / 256 ^ 4 % 256,
     v / 256 ^ 3 % 256, v / 256 ^ 2 % 256, v / 256 % 256, v % 256]
  BytesToUint64 := fun bs => beValue bs % 2 ^ 64

/-! ## Package `db`: buckets, iterators, databases (`common/db`) -/

/-- Bucket identifiers are Go strings, kept as their bytes. -/
abbrev BucketID := Bytes

/-- `PrefixIISSHeader = "HD"`. -/
def PrefixIISSHeader : BucketID := [72, 68]

/-- `PrefixIISSGV = "gv"`. -/
def PrefixIISSGV : BucketID := [103, 118]

/-- `PrefixIISSPRep = "prep"`. -/
def PrefixIISSPRep : BucketID := [112, 114, 101, 112]

/-- `PrefixIISSTX = "TX"`. -/
def PrefixIISSTX : BucketID := [84, 88]

/-- `internalKey` returns key prefixed with the bucket's id. -/
def internalKey (id : BucketID) (key : Bytes) : Bytes :=
  let buf := List.replicate (key.length + id.length) 0
  let buf := copy buf id
  buf.take id.length ++ copy (buf.drop id.length) key

/-- `util.Range` of goleveldb: `Start` and `Limit` (which may be nil). -/
structure Range where
  Start : Bytes
  Limit : Option Bytes
  deriving DecidableEq

/-- The loop of `util.BytesPrefix`: scan from the last byte for one below `0xff`,
and return the prefix up to it with that byte incremented. -/
def bytesPrefixLimit (pfx : Bytes) : Nat → Option Bytes
  | 0 => none
  | i + 1 =>
    let c := pfx.getD i 0
    if c < 255 then some (pfx.take i ++ [c + 1]) else bytesPrefixLimit pfx i

/-- `util.BytesPrefix(prefix)`: the key range of all keys with the given prefix. -/
def BytesPrefix (pfx : Bytes) : Range := ⟨pfx, bytesPrefixLimit pfx pfx.length⟩

/-- Interface `db.Bucket` (the two read methods). -/
structure Bucket where
  Get : Bytes → Outcome (Option Bytes × Option Err)
  Has : Bytes → Outcome Bool

/-- Interface `db.Iterator`. After `New(start, limit)` the calls of `Next`, `Key`
and `Value` walk a finite sequence of entries, and `Error` reports what went wrong
while iterating. -/
structure Iterator where
  entries : Bytes → Option Bytes → List (Bytes × Bytes)
  Error : Bytes → Option Bytes → Option Err

/-- Interface `db.Batch`; no method of it is used here. -/
structure Batch where
  ops : List (Bytes × Option Bytes)

/-- The type `db.Snapshot`; no method of it is used here. -/
structure Snapshot where
  view : List (Bytes × Bytes)

/-- Interface `db.Database`. A returned interface value may be nil. -/
structure Database where
  GetBucket : BucketID → Option Bucket × Option Err
  GetIterator : Option Iterator × Option Err
  GetBatch : Option Batch × Option Err
  Close : Option Err

/-! ## Snapshot records (`core/db_iissdata.go`) -/

/-- `IISSDataRevisionDefault`. -/
def IISSDataRevisionDefault : Nat := 0

structure IISSHeader where
  Version : Nat
  BlockHeight : Nat
  Revision : Nat
  deriving DecidableEq

structure IISSGVData where
  IncentiveRep : Nat
  RewardRep : Nat
  MainPRepCount : Nat
  SubPRepCount : Nat
  deriving DecidableEq

structure IISSGovernanceVariable extends IISSGVData where
  BlockHeight : Nat
  deriving DecidableEq

/-- The decoders of package `codec` used by the records: `codec.UnmarshalFromBytes(bs, p)`
writes into the value `p` points to and returns an error. -/
structure Codec where
  UnmarshalHeader : Bytes → IISSHeader → IISSHeader × Option Err
  UnmarshalGVData : Bytes → IISSGVData → IISSGVData × Option Err

/-- `IISSHeader.SetBytes`: the header after the call and the returned error. -/
def IISSHeader.SetBytes (cd : Codec) (ih : IISSHeader) (bs : Bytes) :
    IISSHeader × Option Err :=
  match cd.UnmarshalHeader bs ih with
  | (ih, some err) => (ih, some err)
  | (ih, none) =>
    -- for backward compatibility
    let ih := if ih.Version = 1 then { ih with Revision := IISSDataRevisionDefault } else ih
    (ih, none)

/-- `IISSGovernanceVariable.ID`: `none` when the slice expression is out of range. -/
def IISSGovernanceVariable.ID (c : Common) (gv : IISSGovernanceVariable) : Option Bytes :=
  let bs := List.replicate 8 0
  let id := c.Uint64ToBytes gv.BlockHeight
  if id.length ≤ bs.length then
    some (bs.take (bs.length - id.length) ++ copy (bs.drop (bs.length - id.length)) id)
  else none

/-- `IISSGovernanceVariable.SetBytes`: the record after the call and the returned error.
The decoder is handed `&gv.IISSGVData` only. -/
def IISSGovernanceVariable.SetBytes (cd : Codec) (gv : IISSGovernanceVariable) (bs : Bytes)
    (version : Nat) : IISSGovernanceVariable × Option Err :=
  match cd.UnmarshalGVData bs gv.toIISSGVData with
  | (d, some err) => ({ gv with toIISSGVData := d }, some err)
  | (d, none) =>
    let gv := { gv with toIISSGVData := d }
    -- for backward compatibility
    let gv := if version = 1 then { gv with MainPRepCount := 0, SubPRepCount := 0 } else gv
    (gv, none)

/-- `new(IISSGovernanceVariable)`. -/
def IISSGovernanceVariable.new : IISSGovernanceVariable :=
  { IncentiveRep := 0, RewardRep := 0, MainPRepCount := 0, SubPRepCount := 0, BlockHeight := 0 }

/-- The body of the `for iter.Next()` loop of `loadIISSGovernanceVariable`, over the
entries the iterator still has to yield; `gvList` is the list built so far. The result
is the list at the end of the loop, or the `return nil, err` inside the loop. -/
def loadGVLoop (c : Common) (cd : Codec) (version : Nat) :
    List (Bytes × Bytes) → List IISSGovernanceVariable →
      Outcome (Except Err (List IISSGovernanceVariable))
  | [], gvList => .ret (.ok gvList)
  | (key, value) :: rest, gvList =>
    match IISSGovernanceVariable.new.SetBytes cd value version with
    | (_, some err) => .ret (.error err)
    | (gv, none) =>
      if key.length < PrefixIISSGV.length then .panicked .sliceOutOfRange
      else
        let gv := { gv with BlockHeight := c.BytesToUint64 (key.drop PrefixIISSGV.length) }
        loadGVLoop c cd version rest (gvList ++ [gv])

/-- `loadIISSGovernanceVariable`: the returned list (`none` is nil) and error. -/
def loadIISSGovernanceVariable (c : Common) (cd : Codec) (iissDB : Database) (version : Nat) :
    Outcome (Option (List IISSGovernanceVariable) × Option Err) :=
  match iissDB.GetIterator with
  | (_, some err) => .ret (none, some err)
  | (none, none) => .panicked .nilDereference
  | (some iter, none) =>
    let pfx := BytesPrefix PrefixIISSGV
    match loadGVLoop c cd version (iter.entries pfx.Start pfx.Limit) [] with
    | .panicked r => .panicked r
    | .ret (.error err) => .ret (none, some err)
    | .ret (.ok gvList) =>
      -- iter.Release(); err = iter.Error(); a non-nil err is written to the log only
      .ret (some gvList, none)

/-- The key under which `WriteIISSGV` stores the governance variable of a block height:
`bucket.Set(gv.ID(), value)` in the bucket `PrefixIISSGV`, whose keys are prefixed
with the bucket's id by `internalKey`. -/
def gvStoreKey (c : Common) (blockHeight : Nat) : Option Bytes :=
  ({ IISSGovernanceVariable.new with BlockHeight := blockHeight }.ID c).map
    (internalKey PrefixIISSGV)

/-- The iterator entry `e` is stored under the key of block height `h`. -/
def storedAt (c : Common) (e : Bytes × Bytes) (h : Nat) : Prop :=
  h < 2 ^ 64 ∧ gvStoreKey c h = some e.1

/-- The range `loadIISSGovernanceVariable` hands to `iter.New`. -/
def gvRange : Range := BytesPrefix PrefixIISSGV

/-- A reference decoder: four bytes are the four fields of the payload (for the header,
three bytes are the three fields); anything else is a decoding error. -/
def refCodec : Codec where
  UnmarshalHeader := fun bs ih =>
    match bs with
    | [v, b, r] => (⟨v, b, r⟩, none)
    | _ => (ih, some "decode error")
  UnmarshalGVData := fun bs d =>
    match bs with
    | [i, r, m, s] => (⟨i, r, m, s⟩, none)
    | _ => (d, some "decode error")

/-- Whether `key` lies in the range from `start` (inclusive) to `limit` (exclusive). -/
def inRange (start : Bytes) (limit : Option Bytes) (key : Bytes) : Bool :=
  !bytesLt key start &&
    (match limit with
     | none => true
     | some l => bytesLt key l)

/-- A reference in-memory database over a key-ordered list of entries. Its buckets
read the entries under `internalKey`, its iterator yields the entries of the requested
range and then reports `iterErr`. -/
def memDB (store : List (Bytes × Bytes)) (iterErr : Option Err) : Database where
  GetBucket := fun id =>
    (some { Get := fun key => .ret (store.lookup (internalKey id key), none)
            Has := fun key => .ret (store.lookup (internalKey id key)).isSome }, none)
  GetIterator :=
    (some { entries := fun start limit => store.filter (fun e => inRange start limit e.1)
            Error := fun _ _ => iterErr }, none)
  GetBatch := (some ⟨[]⟩, none)
  Close := none

/-- Two stored governance variables, at the block heights 255 and 256. -/
def sampleGVEntries : List (Bytes × Bytes) :=
  [([103, 118, 0, 0, 0, 0, 0, 0, 0, 255], [1, 2, 3, 4]),
   ([103, 118, 0, 0, 0, 0, 0, 0, 1, 0], [5, 6, 7, 8])]

/-- A snapshot database: a version-2 header for block height 100 under `"HD"`, then the
two governance variables. -/
def sampleStore : List (Bytes × Bytes) := ([72, 68], [2, 100, 5]) :: sampleGVEntries

/-! ## Signatures (`common/signature.go`) -/

/-- Package `crypto` (not part of the excerpt): the signature type `Sig` with
`ParseSignature(b) (*Signature, error)` and `(*Signature).SerializeRSV() ([]byte, error)`.
A successful parse yields a non-nil signature. -/
structure Crypto (Sig : Type) where
  ParseSignature : Bytes → Except Err Sig
  SerializeRSV : Sig → Except Err Bytes

/-- The assumption on package `crypto`: serialising a signature parsed from a 65-byte RSV
string gives that string back. -/
def CryptoRoundTrip {Sig : Type} (cr : Crypto Sig) : Prop :=
  ∀ b sig, b.length = 65 → cr.ParseSignature b = .ok sig → cr.SerializeRSV sig = .ok b

/-- `common.Signature`: a struct embedding a `*crypto.Signature`, which may be nil
(the embedded field, `Signature` in Go, is `sig` here). -/
structure Signature (Sig : Type) where
  sig : Option Sig

/-- The promoted method `sig.SerializeRSV()`, that is `sig.Signature.SerializeRSV()`;
on a nil pointer the receiver is dereferenced. -/
def Signature.SerializeRSV {Sig : Type} (cr : Crypto Sig) (sig : Signature Sig) :
    Outcome (Except Err Bytes) :=
  match sig.sig with
  | none => .panicked .nilDereference
  | some s => .ret (cr.SerializeRSV s)

/-- `Signature.MarshalBinary`. -/
def Signature.MarshalBinary {Sig : Type} (cr : Crypto Sig) (sig : Signature Sig) :
    Outcome (Except Err Bytes) :=
  sig.SerializeRSV cr

/-- `Signature.UnmarshalBinary`: the signature after the call and the returned error. -/
def Signature.UnmarshalBinary {Sig : Type} (cr : Crypto Sig) (sig : Signature Sig)
    (s : Bytes) : Signature Sig × Option Err :=
  match cr.ParseSignature s with
  | .ok sig0 => ({ sig with sig := some sig0 }, none)
  | .error err => (sig, some err)

/-- A reference instance of package `crypto`: a signature keeps its 65 RSV bytes. -/
def refCrypto : Crypto Bytes where
  ParseSignature := fun b =>
    if b.length = 65 then .ok b else .error "wrong raw signature format"
  SerializeRSV := fun sig => .ok sig

/-- The input of `TestSignatureCoding`:
`"01234567890123456789012345678901234567890123456789012345678901234"`. -/
def obs : Bytes := (List.range 65).map (fun i => 48 + i % 10)

/-! ## The CALCULATE client (`cmd/sendipc/cli_calculate.go`) -/

/-- The message types of package `core` (their values are not part of the excerpt). -/
structure MsgTypes where
  MsgCalculate : Nat
  MsgCalculateDone : Nat
  MsgReady : Nat

/-- `core.CalculateRequest`. -/
structure CalculateRequest where
  Path : String
  BlockHeight : Nat
  deriving DecidableEq

/-- Interface `ipc.Connection` over connection states `σ`, for a response buffer of type
`Resp`. `SendAndReceive(msg, id, data, buf)` returns an error; `Receive(buf)` returns the
message type, the correlation id and an error. Both may write the buffer. -/
structure Connection (σ Resp : Type) where
  SendAndReceive : σ → Nat → Nat → CalculateRequest → Resp → σ × Resp × Option Err
  Receive : σ → Resp → σ × Resp × Nat × Nat × Option Err

/-- The line `calculate` prints. -/
inductive Printed (Resp : Type) where
  /-- The line `CALCULATE command get calculate result: <resp>`. -/
  | calculateResult (resp : Resp)
  /-- The line `CALCULATE command get invalied response : (msg, id)`. -/
  | invalidResponse (msg id : Nat)
  deriving DecidableEq

/-- The struct `CLI` of the sendipc tool, with its correlation id. -/
structure CLI where
  id : Nat

/-- `CLI.calculate`: the connection state afterwards and the printed line. The function
returns nothing to its caller. -/
def CLI.calculate {σ Resp : Type} (M : MsgTypes) (conn : Connection σ Resp) (cli : CLI)
    (s : σ) (iissData : String) (blockHeight : Nat) (resp : Resp) : σ × Printed Resp :=
  let req : CalculateRequest := ⟨iissData, blockHeight⟩
  -- Send CALCULATE and get ack
  match conn.SendAndReceive s M.MsgCalculate cli.id req resp with
  | (s, resp, _) =>
    -- Get CALCULATE_DONE
    match conn.Receive s resp with
    | (s, resp, msg, id, _) =>
      if msg = M.MsgReady then (s, .calculateResult resp)
      else (s, .invalidResponse msg id)

/-- An incoming message of the reference connection. -/
structure Frame (Resp : Type) where
  msg : Nat
  id : Nat
  err : Option Err
  payload : Option Resp

/-- A reference connection: its state is the sequence of messages still to arrive. -/
def scriptedConn (Resp : Type) : Connection (List (Frame Resp)) Resp where
  SendAndReceive := fun s msg id _ resp =>
    match s with
    | [] => ([], resp, some "EOF")
    | f :: rest =>
      (rest, f.payload.getD resp,
        if f.err.isSome then f.err
        else if f.msg = msg ∧ f.id = id then none else some "invalid response")
  Receive := fun s resp =>
    match s with
    | [] => ([], resp, 0, 0, some "EOF")
    | f :: rest => (rest, f.payload.getD resp, f.msg, f.id, f.err)

/-- Sample message types, pairwise distinct. -/
def sampleMsgTypes : MsgTypes := ⟨3, 101, 100⟩

/-! ## The bolt backend (`common/db/bolt_db.go`) -/

/-- A model of `bolt.DB` (package bbolt): whether the file is open, and its buckets with
their key/value pairs. -/
structure BoltStore where
  opened : Bool
  buckets : List (Bytes × List (Bytes × Bytes))
  deriving DecidableEq

/-- The error `bolt.ErrDatabaseNotOpen`. -/
def ErrDatabaseNotOpen : Err := "database not open"

/-- The error `bolt.ErrBucketNameRequired`. -/
def ErrBucketNameRequired : Err := "bucket name required"

/-- `tx.Bucket(name)`: nil when the bucket does not exist. -/
def BoltStore.Bucket (db : BoltStore) (name : Bytes) : Option (List (Bytes × Bytes)) :=
  db.buckets.lookup name

/-- `(*bolt.Bucket).Get(key)`: nil when the key is not stored. -/
def boltGet (b : List (Bytes × Bytes)) (key : Bytes) : Option Bytes := b.lookup key

structure boltBucket where
  id : BucketID
  db : BoltStore
  deriving DecidableEq

/-- `boltBucket.Get`. `db.View` returns an error without running the function when no
transaction can be started; inside, `tx.Bucket(id)` is nil for a missing bucket and the
call of `Get` on it panics. -/
def boltBucket.Get (bucket : boltBucket) (key : Bytes) : Outcome (Option Bytes × Option Err) :=
  if bucket.db.opened then
    match bucket.db.Bucket bucket.id with
    | none => .panicked .nilDereference
    | some b => .ret (boltGet b key, none)
  else .ret (none, some ErrDatabaseNotOpen)

/-- `boltBucket.Has`. -/
def boltBucket.Has (bucket : boltBucket) (key : Bytes) : Outcome Bool :=
  match bucket.Get key with
  | .panicked r => .panicked r
  | .ret (value, err) =>
    if !(value.isSome && err.isNone) then .ret false
    else .ret true

/-- A sample open bolt store with one bucket holding one key. -/
def sampleBolt : BoltStore := ⟨true, [(PrefixIISSGV, [([1], [42])])]⟩

/-! ## The backend registry (`common/db/database.go`) -/

/-- `BackendType`, a Go string kept as its bytes. -/
abbrev BackendType := Bytes

/-- `BoltDBBackend = "boltdb"`. -/
def BoltDBBackend : BackendType := [98, 111, 108, 116, 100, 98]

/-- `GoLevelDBBackend = "goleveldb"`. -/
def GoLevelDBBackend : BackendType := [103, 111, 108, 101, 118, 101, 108, 100, 98]

/-- `dbCreator`: `func(name string, dir string) (Database, error)`. -/
abbrev dbCreator := String → String → Option Database × Option Err

/-- The type of the package variable `backends`, a Go map. -/
abbrev Backends := BackendType → Option dbCreator

/-- `registerDBCreator`: the map `backends` afterwards. -/
def registerDBCreator (backends : Backends) (backend : BackendType) (creator : dbCreator)
    (force : Bool) : Backends :=
  let ok := (backends backend).isSome
  if !force && ok then backends
  else fun b => if b = backend then some creator else backends b

/-- `openDatabase`. The panic message lists the registered backends in map order, which
Go leaves unspecified; the model keeps which panic it is and its argument. -/
def openDatabase (backends : Backends) (backend : BackendType) (name : String)
    (dir : String) : Outcome (Option Database) :=
  match backends backend with
  | none => .panicked (.unknownBackend backend)
  | some dbCreator =>
    match dbCreator name dir with
    | (_, some err) => .panicked (.initError err)
    | (db, none) => .ret db

/-- `Open`. -/
def Open (backends : Backends) (dir : String) (dbtype : BackendType) (name : String) :
    Outcome (Option Database) :=
  openDatabase backends dbtype name dir

/-- The struct `BoltDB`, holding its `*bolt.DB`. -/
structure BoltDB where
  db : BoltStore
  deriving DecidableEq

/-- `BoltDB.GetBucket`: the store after `CreateBucketIfNotExists` ran inside `db.Update`,
the returned bucket (never nil) and the error of the update. -/
def BoltDB.GetBucket (db : BoltDB) (id : BucketID) : BoltDB × Option boltBucket × Option Err :=
  if !db.db.opened then (db, some ⟨id, db.db⟩, some ErrDatabaseNotOpen)
  else if id = [] then (db, some ⟨id, db.db⟩, some ErrBucketNameRequired)
  else
    let st : BoltStore :=
      if (db.db.Bucket id).isSome then db.db
      else { db.db with buckets := db.db.buckets ++ [(id, [])] }
    (⟨st⟩, some ⟨id, st⟩, none)

/-- `BoltDB.GetIterator`. -/
def BoltDB.GetIterator (_ : BoltDB) : Option Iterator × Option Err := (none, none)

/-- `BoltDB.GetBatch`. -/
def BoltDB.GetBatch (_ : BoltDB) : Option Batch × Option Err := (none, none)

/-- `BoltDB.GetSnapshot`. -/
def BoltDB.GetSnapshot (_ : BoltDB) : Option Snapshot × Option Err := (none, none)

/-- A `*boltBucket` as a `Bucket` (`var _ Bucket = (*boltBucket)(nil)`). -/
def boltBucket.toBucket (bucket : boltBucket) : Bucket := ⟨bucket.Get, bucket.Has⟩

/-- A `*BoltDB` as a `Database` (`var _ Database = (*BoltDB)(nil)`). -/
def BoltDB.toDatabase (db : BoltDB) : Database where
  GetBucket := fun id => ((db.GetBucket id).2.1.map boltBucket.toBucket, (db.GetBucket id).2.2)
  GetIterator := db.GetIterator
  GetBatch := db.GetBatch
  Close := none

/-- `NewBoltDB`, over the result of `bolt.Open(filepath.Join(dir, name+".db"), 0644, nil)`. -/
def NewBoltDB (boltOpen : String → String → Except Err BoltStore) (name : String)
    (dir : String) : Option BoltDB × Option Err :=
  match boltOpen dir (name ++ ".db") with
  | .error err => (none, some err)
  | .ok db => (some ⟨db⟩, none)

/-- The `init` function of `bolt_db.go`: the map `backends` afterwards. -/
def boltInit (boltOpen : String → String → Except Err BoltStore) (backends : Backends) :
    Backends :=
  let dbCreator : dbCreator := fun name dir =>
    ((NewBoltDB boltOpen name dir).1.map BoltDB.toDatabase, (NewBoltDB boltOpen name dir).2)
  registerDBCreator backends BoltDBBackend dbCreator false

/-! ## Loading a snapshot (`core/db_iissdata.go`) -/

/-- `new(IISSHeader)`. -/
def IISSHeader.new : IISSHeader := ⟨0, 0, 0⟩

/-- `loadIISSHeader`. The error of `GetBucket` is dropped, so a nil bucket is used. -/
def loadIISSHeader (cd : Codec) (iissDB : Database) : Outcome (Option IISSHeader × Option Err) :=
  match iissDB.GetBucket PrefixIISSHeader with
  | (none, _) => .panicked .nilDereference
  | (some bucket, _) =>
    match bucket.Get [] with
    | .panicked r => .panicked r
    | .ret (_, some err) => .ret (none, some err)
    | .ret (none, none) => .ret (none, some "There is no header data in IISS data\n")
    | .ret (some data, none) =>
      match IISSHeader.new.SetBytes cd data with
      | (_, some err) => .ret (none, some err)
      | (header, none) => .ret (some header, none)

/-- `LoadIISSData`, over `LoadPRep` (not part of the excerpt) for a P-Rep list type `PRep`. -/
def LoadIISSData {PRep : Type} (c : Common) (cd : Codec)
    (LoadPRep : Database → Outcome (Option (List PRep) × Option Err)) (iissDB : Database) :
    Outcome (Option IISSHeader × Option (List IISSGovernanceVariable) × Option (List PRep)) :=
  -- Load IISS Data
  match loadIISSHeader cd iissDB with
  | .panicked r => .panicked r
  | .ret (_, some _) => .ret (none, none, none)
  | .ret (none, none) => .panicked .nilDereference
  | .ret (some header, none) =>
    -- Governance Variable
    match loadIISSGovernanceVariable c cd iissDB header.Version with
    | .panicked r => .panicked r
    | .ret (_, some _) => .ret (none, none, none)
    | .ret (gvList, none) =>
      -- Main/Sub P-Rep
      match LoadPRep iissDB with
      | .panicked r => .panicked r
      | .ret (_, some _) => .ret (none, none, none)
      | .ret (pRepList, none) => .ret (some header, gvList, pRepList)

/-! ## Writing a transaction (`WriteIISSTX` of `core/db_iissdata.go`) -/

/-- `PRepDelegationInfo` (declared outside the excerpt; its two fields are used by
`WriteIISSTX` and `cli_create.go`): a `common.Address` and a big integer amount. -/
structure PRepDelegationInfo where
  Address : Bytes
  DelegatedAmount : Int
  deriving DecidableEq

/-- An element of the `[]interface{}` built for a delegation: a `*common.Address` or a
`uint64`. -/
inductive Elem where
  | address (a : Bytes)
  | uint64 (n : Nat)
  deriving DecidableEq

/-- `(*big.Int).Uint64()`: the low 64 bits of the magnitude. -/
def Uint64 (x : Int) : Nat := x.natAbs % 2 ^ 64

/-- The loop `for _, dg := range delegations` of `WriteIISSTX`, with the two variables
`delegation` and `dgData` declared before it. -/
def delegationLoop : List PRepDelegationInfo → List (List Elem) → List Elem → List (List Elem)
  | [], delegation, _ => delegation
  | dg :: rest, delegation, dgData =>
    let dgData := dgData ++ [.address dg.Address]
    let dgData := dgData ++ [.uint64 (Uint64 dg.DelegatedAmount)]
    let delegation := delegation ++ [dgData]
    delegationLoop rest delegation dgData

/-- `TXDataTypeDelegate`. -/
def TXDataTypeDelegate : Nat := 0

/-- `TXDataTypePrepReg`. -/
def TXDataTypePrepReg : Nat := 1

/-- `TXDataTypePrepUnReg`. -/
def TXDataTypePrepUnReg : Nat := 2

/-- The object `WriteIISSTX` passes to `common.EncodeAny`: the variable `delegation` after
the loop, in the case `TXDataTypeDelegate`; no call for the other data types. -/
def WriteIISSTX.encodeAnyArg (dataType : Nat) (delegations : List PRepDelegationInfo) :
    Option (List (List Elem)) :=
  if dataType = TXDataTypeDelegate then some (delegationLoop delegations [] []) else none

/-- The pair the claim expects for one delegation. -/
def delegationPair (dg : PRepDelegationInfo) : List Elem :=
  [.address dg.Address, .uint64 (Uint64 dg.DelegatedAmount)]

/-! ## The other record keys (`core/db_iissdata.go`) -/

structure IISSBlockProduceInfoData where
  Generator : Bytes
  Validator : List Bytes
  deriving DecidableEq

structure IISSBlockProduceInfo extends IISSBlockProduceInfoData where
  BlockHeight : Nat
  deriving DecidableEq

/-- `IISSBlockProduceInfo.ID`: `none` when the slice expression is out of range. -/
def IISSBlockProduceInfo.ID (c : Common) (bp : IISSBlockProduceInfo) : Option Bytes :=
  let bs := List.replicate 8 0
  let id := c.Uint64ToBytes bp.BlockHeight
  if id.length ≤ bs.length then
    some (bs.take (bs.length - id.length) ++ copy (bs.drop (bs.length - id.length)) id)
  else none

/-- `IISSTXData`, for a type `Obj` of encoded objects (`codec.TypedObj`); `Data` is a
pointer and may be nil. -/
structure IISSTXData (Obj : Type) where
  Address : Bytes
  BlockHeight : Nat
  DataType : Nat
  Data : Option Obj

structure IISSTX (Obj : Type) extends IISSTXData Obj where
  Index : Nat

/-- `IISSTX.ID`: `none` when the slice expression is out of range. -/
def IISSTX.ID {Obj : Type} (c : Common) (tx : IISSTX Obj) : Option Bytes :=
  let bs := List.replicate 8 0
  let id := c.Uint64ToBytes tx.Index
  if id.length ≤ bs.length then
    some (bs.take (bs.length - id.length) ++ copy (bs.drop (bs.length - id.length)) id)
  else none

/-- The big-endian digits of `v` without leading zero bytes, at most `n` of them. -/
def minimalBigEndian : Nat → Nat → Bytes
  | 0, _ => []
  | n + 1, v => if v = 0 then [] else minimalBigEndian n (v / 256) ++ [v % 256]

/-- A second reference instance of the helpers `common.Uint64ToBytes` and
`common.BytesToUint64`, whose source is not part of the excerpt: the big-endian bytes of
the value without leading zero bytes, and a big-endian read. -/
def specCommon : Common where
  Uint64ToBytes := fun v => minimalBigEndian 8 v
  BytesToUint64 := fun bs => beValue bs % 2 ^ 64

/-! ## Printing the claim backup (`cmd/dbtool/db_claimbackup.go`) -/

/-- `core.Claim`, for a type `D` of claim data: the address and the data. -/
structure Claim (D : Type) where
  Address : Bytes
  Data : D
  deriving DecidableEq

/-- What `db_claimbackup.go` uses from the packages `db`, `core` and `common`, none of it
part of the excerpt: the constants `db.PrefixManagement` and `core.BlockHeightSize`, the
decoder `ClaimBackupInfo.SetBytes` run on a fresh value, `core.NewClaimFromBytes` (a
successful call yields a non-nil claim) and `common.NewAddress`, which returns a pointer
that may be nil. `Info` is the type `core.ClaimBackupInfo`. -/
structure BackupLib (Info D : Type) where
  PrefixManagement : Bytes
  BlockHeightSize : Nat
  ClaimBackupInfoSetBytes : Bytes → Except Err Info
  NewClaimFromBytes : Bytes → Except Err (Claim D)
  NewAddress : Bytes → Option Bytes

/-- `isManageKey`. -/
def isManageKey {Info D : Type} (L : BackupLib Info D) (key : Bytes) : Bool :=
  key.length == L.PrefixManagement.length && key == L.PrefixManagement

/-- `newClaimFromBackup`: the returned claim (`none` is nil) and error. The slice
expression `key[core.BlockHeightSize:]` panics on a shorter key, and so does the
dereference of a nil address. -/
def newClaimFromBackup {Info D : Type} (L : BackupLib Info D) (key value : Bytes) :
    Outcome (Option (Claim D) × Option Err) :=
  if isManageKey L key then .ret (none, none)
  else
    match L.NewClaimFromBytes value with
    | .error err => .ret (none, some err)
    | .ok claim =>
      if key.length < L.BlockHeightSize then .panicked .sliceOutOfRange
      else
        match L.NewAddress (key.drop L.BlockHeightSize) with
        | none => .panicked .nilDereference
        | some addr => .ret (some { claim with Address := addr }, none)

/-- A reference instance: the management key is `"MG"`, block heights take 8 bytes, a
backup info is its bytes, a claim is decoded from a non-empty value, and an address is
its non-empty bytes. -/
def refBackupLib : BackupLib Bytes Bytes where
  PrefixManagement := [77, 71]
  BlockHeightSize := 8
  ClaimBackupInfoSetBytes := fun value =>
    if value = [] then .error "empty backup info" else .ok value
  NewClaimFromBytes := fun value =>
    if value = [] then .error "empty claim" else .ok ⟨[], value⟩
  NewAddress := fun b => if b = [] then none else some b

/-! ## Removing old snapshots (`cleanupIISSData` of `core/db_iissdata.go`) -/

/-- `IISSDataDBPrefix`. -/
def IISSDataDBPrefix : String := "iiss_rc_db_"

/-- What `cleanupIISSData` uses of an `os.FileInfo`. -/
structure FileInfo where
  Name : String
  IsDir : Bool
  deriving DecidableEq

/-- `strings.HasPrefix`. -/
def HasPrefix (s pfx : String) : Bool := pfx.data.isPrefixOf s.data

/-- The loop of `findIISSData` over the directory entries; `iissData` is the list built
so far. -/
def findIISSDataLoop (pfx : String) : List FileInfo → List FileInfo → List FileInfo
  | [], iissData => iissData
  | f :: files, iissData =>
    if f.IsDir = true then
      if pfx ≠ "" ∧ HasPrefix f.Name pfx ≠ true then findIISSDataLoop pfx files iissData
      else findIISSDataLoop pfx files (iissData ++ [f])
    else findIISSDataLoop pfx files iissData

/-- `findIISSData`, over the result of `ioutil.ReadDir`; `none` is the nil slice. -/
def findIISSData (ReadDir : String → Except Err (List FileInfo)) (dir pfx : String) :
    Option (List FileInfo) :=
  match ReadDir dir with
  | .error _ => none
  | .ok files => some (findIISSDataLoop pfx files [])

/-- `filepath.Split`: the path up to and including the last slash, and the rest. -/
def filepathSplit (path : String) : String × String :=
  let name := (path.data.reverse.takeWhile (fun ch => ch ≠ '/')).reverse
  (String.mk (path.data.take (path.data.length - name.length)), String.mk name)

/-- The effect of `fmt.Sscanf(name, IISSDataDBFormat, &x)` on the variable `x`, whose
returned count and error the code drops: a scanned number is stored, and nothing is
stored when the scan fails. -/
def scanInto (Sscanf : String → Option Int) (name : String) (x : Int) : Int :=
  match Sscanf name with
  | some h => h
  | none => x

/-- The loop of `cleanupIISSData` over the snapshots found; `backupBH` is the variable
declared before the loop, `removed` the names handed to `os.RemoveAll` so far (each joined
with `dir`). -/
def cleanupLoop (Sscanf : String → Option Int) (blockHeight : Int) :
    List FileInfo → Int → List String → List String
  | [], _, removed => removed
  | backup :: rest, backupBH, removed =>
    let backupBH := scanInto Sscanf backup.Name backupBH
    if backupBH < blockHeight then
      cleanupLoop Sscanf blockHeight rest backupBH (removed ++ [backup.Name])
    else cleanupLoop Sscanf blockHeight rest backupBH removed

/-- `cleanupIISSData`: the names of the entries of `dir` it removes, in order. `Sscanf`
gives the number `fmt.Sscanf` scans from a name with the format `IISSDataDBFormat`, if
any. -/
def cleanupIISSData (ReadDir : String → Except Err (List FileInfo))
    (Sscanf : String → Option Int) (path : String) : List String :=
  let blockHeight : Int := 0
  let backupBH : Int := 0
  let dir := (filepathSplit path).1
  let name := (filepathSplit path).2
  let blockHeight := scanInto Sscanf name blockHeight
  -- delete old backup data
  match findIISSData ReadDir dir IISSDataDBPrefix with
  | none => []
  | some backups => cleanupLoop Sscanf blockHeight backups backupBH []

/-- The decimal number at the start of the characters: at least one digit. -/
def scanDecimal (cs : List Char) : Option Nat :=
  let ds := cs.takeWhile Char.isDigit
  if ds = [] then none else some (ds.foldl (fun acc d => acc * 10 + (d.toNat - 48)) 0)

/-- The space characters of package `fmt` (`isSpace`). -/
def isSpace (ch : Char) : Bool :=
  let r := ch.toNat
  (9 ≤ r && r ≤ 13) || r == 0x20 || r == 0x85 || r == 0xA0 || r == 0x1680 ||
    (0x2000 ≤ r && r ≤ 0x200a) || r == 0x2028 || r == 0x2029 || r == 0x202f ||
    r == 0x205f || r == 0x3000

/-- `SkipSpace` as `Sscanf` runs it before a verb: spaces are skipped, a newline is an
error. -/
def skipSpace : List Char → Option (List Char)
  | [] => some []
  | ch :: rest =>
    if ch = '\n' then none
    else if isSpace ch then skipSpace rest
    else some (ch :: rest)

/-- The number is kept only when it fits an `int` of 64 bits. -/
def fitsInt64 (x : Int) : Option Int :=
  if - (2 : Int) ^ 63 ≤ x ∧ x < (2 : Int) ^ 63 then some x else none

/-- A reference `Sscanf` for the format `"iiss_rc_db_%d"`: the literal text, then spaces
are skipped, then an optional sign and a decimal number that fits 64 bits; whatever
follows the number is not looked at. -/
def refSscanf (name : String) : Option Int :=
  if HasPrefix name IISSDataDBPrefix then
    match skipSpace (name.data.drop IISSDataDBPrefix.length) with
    | none => none
    | some ('-' :: rest) => (scanDecimal rest).bind (fun n => fitsInt64 (- (n : Int)))
    | some ('+' :: rest) => (scanDecimal rest).bind (fun n => fitsInt64 (n : Int))
    | some rest => (scanDecimal rest).bind (fun n => fitsInt64 (n : Int))
  else none

/-- A directory with the snapshots of the heights 100 and 50, a directory whose name
carries no height, and a file; in the order of `ioutil.ReadDir`, by name. -/
def sampleListing : List FileInfo :=
  [⟨"iiss_rc_db_100", true⟩, ⟨"iiss_rc_db_50", true⟩, ⟨"iiss_rc_db_tmp", true⟩,
   ⟨"iiss_rc_db_7.log", false⟩]

/-! ## Theorems -/

/-! ### Byte strings -/

theorem copy_same_length (dst src : Bytes) (h : dst.length = src.length) :
    copy dst src = src := by
  unfold copy
  rw [h, List.take_length, List.drop_of_length_le (le_of_eq h)]
  simp

theorem internalKey_eq (id : BucketID) (key : Bytes) : internalKey id key = id ++ key := by
  unfold internalKey
  have h1 : copy (List.replicate (key.length + id.length) 0) id
      = id ++ List.replicate key.length 0 := by
    unfold copy
    rw [List.take_of_length_le (by simp), List.drop_replicate]
    simp
  simp only [h1]
  rw [List.take_left, List.drop_left]
  rw [copy_same_length _ _ (by simp)]

theorem validBytes_cons {b : Nat} {bs : Bytes} :
    validBytes (b :: bs) ↔ b < 256 ∧ validBytes bs := by
  simp [validBytes]

theorem validBytes_append {as bs : Bytes} :
    validBytes (as ++ bs) ↔ validBytes as ∧ validBytes bs := by
  simp only [validBytes, List.mem_append]
  constructor
  · intro h
    exact ⟨fun b hb => h b (Or.inl hb), fun b hb => h b (Or.inr hb)⟩
  · rintro ⟨h1, h2⟩ b (hb | hb)
    · exact h1 b hb
    · exact h2 b hb

theorem validBytes_replicate_zero (n : Nat) : validBytes (List.replicate n 0) := by
  intro b hb
  rw [List.eq_of_mem_replicate hb]
  decide

theorem beValue_lt (bs : Bytes) (h : validBytes bs) : beValue bs < 256 ^ bs.length := by
  induction bs with
  | nil => simp [beValue]
  | cons b bs ih =>
    obtain ⟨hb, hbs⟩ := validBytes_cons.mp h
    have := ih hbs
    simp only [beValue, List.length_cons, pow_succ]
    nlinarith

theorem beValue_replicate_zero (n : Nat) : beValue (List.replicate n 0) = 0 := by
  induction n with
  | zero => rfl
  | succ n ih => simp [List.replicate_succ, beValue, ih]

theorem beValue_append (as bs : Bytes) :
    beValue (as ++ bs) = beValue as * 256 ^ bs.length + beValue bs := by
  induction as with
  | nil => simp [beValue]
  | cons a as ih =>
    have hc : beValue (a :: (as ++ bs))
        = a * 256 ^ (as ++ bs).length + beValue (as ++ bs) := rfl
    have hd : beValue (a :: as) = a * 256 ^ as.length + beValue as := rfl
    rw [List.cons_append, hc, hd, ih, List.length_append, pow_add]
    ring

theorem bytesLt_append_left (p as bs : Bytes) :
    bytesLt (p ++ as) (p ++ bs) = bytesLt as bs := by
  induction p with
  | nil => rfl
  | cons x p ih => simp [bytesLt, ih]

/-- On byte strings of one length the lexicographic order is the order of the
big-endian values. -/
theorem bytesLt_iff_beValue_lt (as bs : Bytes) (hlen : as.length = bs.length)
    (ha : validBytes as) (hb : validBytes bs) :
    bytesLt as bs = true ↔ beValue as < beValue bs := by
  induction as generalizing bs with
  | nil =>
    cases bs with
    | nil => simp [bytesLt, beValue]
    | cons b bs => simp at hlen
  | cons a as ih =>
    cases bs with
    | nil => simp at hlen
    | cons b bs =>
      obtain ⟨ha0, ha1⟩ := validBytes_cons.mp ha
      obtain ⟨hb0, hb1⟩ := validBytes_cons.mp hb
      have hl : as.length = bs.length := by simpa using hlen
      have iha := ih bs hl ha1 hb1
      have h1 := beValue_lt as ha1
      have h2 := beValue_lt bs hb1
      rw [hl] at h1
      simp only [bytesLt, beValue, Bool.or_eq_true, Bool.and_eq_true, decide_eq_true_eq,
        beq_iff_eq, iha, hl]
      generalize 256 ^ bs.length = P at h1 h2
      constructor
      · rintro (h | ⟨rfl, h⟩)
        · nlinarith
        · omega
      · intro h
        rcases Nat.lt_trichotomy a b with hab | hab | hab
        · exact Or.inl hab
        · subst hab; right; exact ⟨rfl, by omega⟩
        · exfalso; nlinarith

/-! ### Record keys -/

theorem leftPad_eq (m : Nat) (id : Bytes) (h : id.length ≤ m) :
    (List.replicate m 0).take (m - id.length)
        ++ copy ((List.replicate m 0).drop (m - id.length)) id
      = List.replicate (m - id.length) 0 ++ id := by
  rw [List.take_replicate, List.drop_replicate,
    copy_same_length _ _ (by rw [List.length_replicate]; omega)]
  rw [Nat.min_eq_left (Nat.sub_le _ _)]

/-- Under the assumption on `Uint64ToBytes` the key of a record is the 8-byte
big-endian form of its block height. -/
theorem ID_bigEndian (c : Common) (hu : BigEndianAtMost8 c.Uint64ToBytes)
    (gv : IISSGovernanceVariable) (hv : gv.BlockHeight < 2 ^ 64) :
    ∃ k, gv.ID c = some k ∧ k.length = 8 ∧ validBytes k ∧ beValue k = gv.BlockHeight := by
  obtain ⟨hl, hvld, hval⟩ := hu _ hv
  refine ⟨List.replicate (8 - (c.Uint64ToBytes gv.BlockHeight).length) 0
    ++ c.Uint64ToBytes gv.BlockHeight, ?_, ?_, ?_, ?_⟩
  · unfold IISSGovernanceVariable.ID
    simp only [List.length_replicate, hl, if_true]
    rw [leftPad_eq 8 _ hl]
  · simp; omega
  · exact validBytes_append.mpr ⟨validBytes_replicate_zero _, hvld⟩
  · rw [beValue_append, beValue_replicate_zero, hval]; simp

theorem gvStoreKey_spec (c : Common) (hu : BigEndianAtMost8 c.Uint64ToBytes)
    (h : Nat) (hv : h < 2 ^ 64) :
    ∃ k, gvStoreKey c h = some (PrefixIISSGV ++ k) ∧ k.length = 8 ∧ validBytes k
      ∧ beValue k = h := by
  obtain ⟨k, hk, h1, h2, h3⟩ :=
    ID_bigEndian c hu { IISSGovernanceVariable.new with BlockHeight := h } hv
  exact ⟨k, by simp [gvStoreKey, hk, internalKey_eq], h1, h2, h3⟩

theorem refCommon_bigEndian : BigEndianAtMost8 refCommon.Uint64ToBytes := by
  intro v hv
  refine ⟨by simp [refCommon], ?_, ?_⟩
  · intro b hb
    simp only [refCommon, List.mem_cons, List.mem_singleton, List.not_mem_nil, or_false] at hb
    rcases hb with h | h | h | h | h | h | h | h <;> (subst h; exact Nat.mod_lt _ (by decide))
  · simp only [refCommon, beValue, List.length_cons, List.length_nil]
    norm_num
    omega

theorem refCommon_decodes : DecodesBigEndian8 refCommon.BytesToUint64 := by
  intro bs hl hv
  have := beValue_lt bs hv
  rw [hl] at this
  simp only [refCommon]
  exact Nat.mod_eq_of_lt (by norm_num at this ⊢; exact this)

/-! ### Loading the governance variables -/

theorem loadGVLoop_heights (c : Common) (cd : Codec) (version : Nat)
    (hu : BigEndianAtMost8 c.Uint64ToBytes) (hd : DecodesBigEndian8 c.BytesToUint64)
    (entries : List (Bytes × Bytes)) (hs : List Nat)
    (hst : List.Forall₂ (storedAt c) entries hs) :
    ∀ acc : List IISSGovernanceVariable,
      (∀ l, loadGVLoop c cd version entries acc = .ret (.ok l) →
        l.map (·.BlockHeight) = acc.map (·.BlockHeight) ++ hs) ∧
      ((∀ e ∈ entries, (IISSGovernanceVariable.new.SetBytes cd e.2 version).2 = none) →
        ∃ l, loadGVLoop c cd version entries acc = .ret (.ok l)) := by
  induction hst with
  | nil =>
    intro acc
    refine ⟨fun l hl => ?_, fun _ => ⟨acc, rfl⟩⟩
    simp only [loadGVLoop, Outcome.ret.injEq, Except.ok.injEq] at hl
    simp [hl]
  | @cons e h entries hs he _ ih =>
    intro acc
    obtain ⟨key, value⟩ := e
    obtain ⟨hh, hkey⟩ := he
    obtain ⟨k, hk, hk8, hkv, hkval⟩ := gvStoreKey_spec c hu h hh
    have hkeyeq : key = PrefixIISSGV ++ k := by
      rw [hk] at hkey
      exact (Option.some.inj hkey).symm
    have hlen : ¬ key.length < PrefixIISSGV.length := by
      rw [hkeyeq]; simp
    have hdrop : key.drop PrefixIISSGV.length = k := by
      rw [hkeyeq]; simp
    have hval : c.BytesToUint64 k = h := by rw [hd k hk8 hkv, hkval]
    constructor
    · intro l hl
      unfold loadGVLoop at hl
      rcases hsb : IISSGovernanceVariable.new.SetBytes cd value version with ⟨gv, _ | err⟩
      · simp only [hsb, hlen, if_false, hdrop, hval] at hl
        rw [(ih _).1 l hl]
        simp
      · simp [hsb] at hl
    · intro hall
      have h0 : (IISSGovernanceVariable.new.SetBytes cd value version).2 = none :=
        hall (key, value) (List.mem_cons_self _ _)
      have hrest : ∀ e ∈ entries,
          (IISSGovernanceVariable.new.SetBytes cd e.2 version).2 = none :=
        fun e he => hall e (List.mem_cons_of_mem _ he)
      unfold loadGVLoop
      rcases hsb : IISSGovernanceVariable.new.SetBytes cd value version with ⟨gv, _ | err⟩
      · simp only [hlen, if_false]
        exact (ih _).2 hrest
      · rw [hsb] at h0; simp at h0

/-- Keys of stored heights in ascending byte order belong to ascending heights. -/
theorem heights_ascending (c : Common) (hu : BigEndianAtMost8 c.Uint64ToBytes)
    (entries : List (Bytes × Bytes)) (hs : List Nat)
    (hst : List.Forall₂ (storedAt c) entries hs)
    (hasc : List.Pairwise (fun a b => bytesLt a.1 b.1 = true) entries) :
    List.Pairwise (· < ·) hs := by
  induction hst with
  | nil => exact List.Pairwise.nil
  | @cons e h entries hs he hrest ih =>
    rw [List.pairwise_cons] at hasc ⊢
    refine ⟨fun h2 hh2 => ?_, ih hasc.2⟩
    obtain ⟨e2, he2, hst2⟩ : ∃ e2 ∈ entries, storedAt c e2 h2 := by
      clear ih hasc
      induction hrest with
      | nil => simp at hh2
      | @cons a b l1 l2 hab _ ih2 =>
        rcases List.mem_cons.mp hh2 with rfl | hm
        · exact ⟨a, List.mem_cons_self _ _, hab⟩
        · obtain ⟨x, hx, hx2⟩ := ih2 hm
          exact ⟨x, List.mem_cons_of_mem _ hx, hx2⟩
    have hlt := hasc.1 e2 he2
    obtain ⟨k1, hk1, l1, v1, b1⟩ := gvStoreKey_spec c hu h he.1
    obtain ⟨k2, hk2, l2, v2, b2⟩ := gvStoreKey_spec c hu h2 hst2.1
    have e1 : e.1 = PrefixIISSGV ++ k1 := by
      have := he.2; rw [hk1] at this; exact (Option.some.inj this).symm
    have e2' : e2.1 = PrefixIISSGV ++ k2 := by
      have := hst2.2; rw [hk2] at this; exact (Option.some.inj this).symm
    rw [e1, e2', bytesLt_append_left,
      bytesLt_iff_beValue_lt k1 k2 (by rw [l1, l2]) v1 v2, b1, b2] at hlt
    exact hlt

/-- C1. Governance-variable keys preserve height order: when `common.Uint64ToBytes`
yields the big-endian bytes of the value, at most 8 of them, the key `ID()` of a smaller
block height is strictly smaller in lexicographic byte order than the key of a larger one.
Consequently, when the iterator yields the keys of stored governance variables in
ascending byte order (and `common.BytesToUint64` reads 8 bytes big-endian), every list
`loadIISSGovernanceVariable` returns carries exactly the stored heights and is strictly
increasing by `BlockHeight`; and it does return such a list when every value decodes. -/
theorem gv_keys_preserve_height_order (c : Common) (cd : Codec)
    (hu : BigEndianAtMost8 c.Uint64ToBytes) :
    (∀ g1 g2 : IISSGovernanceVariable,
      g1.BlockHeight < g2.BlockHeight → g2.BlockHeight < 2 ^ 64 →
      ∃ k1 k2, g1.ID c = some k1 ∧ g2.ID c = some k2 ∧ bytesLt k1 k2 = true) ∧
    (∀ (iissDB : Database) (iter : Iterator) (version : Nat) (hs : List Nat),
      DecodesBigEndian8 c.BytesToUint64 →
      iissDB.GetIterator = (some iter, none) →
      List.Forall₂ (storedAt c) (iter.entries gvRange.Start gvRange.Limit) hs →
      List.Pairwise (fun a b => bytesLt a.1 b.1 = true)
        (iter.entries gvRange.Start gvRange.Limit) →
      (∀ l e, loadIISSGovernanceVariable c cd iissDB version = .ret (some l, e) →
        l.map (·.BlockHeight) = hs ∧ List.Pairwise (· < ·) (l.map (·.BlockHeight))) ∧
      ((∀ e ∈ iter.entries gvRange.Start gvRange.Limit,
          (IISSGovernanceVariable.new.SetBytes cd e.2 version).2 = none) →
        ∃ l, loadIISSGovernanceVariable c cd iissDB version = .ret (some l, none))) := by
  constructor
  · intro g1 g2 hlt h2
    obtain ⟨k1, hk1, l1, v1, b1⟩ := ID_bigEndian c hu g1 (lt_trans hlt h2)
    obtain ⟨k2, hk2, l2, v2, b2⟩ := ID_bigEndian c hu g2 h2
    refine ⟨k1, k2, hk1, hk2, ?_⟩
    rw [bytesLt_iff_beValue_lt k1 k2 (by rw [l1, l2]) v1 v2, b1, b2]
    exact hlt
  · intro iissDB iter version hs hd hit hst hasc
    have hloop := loadGVLoop_heights c cd version hu hd _ hs hst []
    have hsorted := heights_ascending c hu _ hs hst hasc
    constructor
    · intro l e hl
      unfold loadIISSGovernanceVariable at hl
      simp only [hit] at hl
      change (match loadGVLoop c cd version (iter.entries gvRange.Start gvRange.Limit) []
        with
        | .panicked r => Outcome.panicked r
        | .ret (.error err) => .ret (none, some err)
        | .ret (.ok gvList) => .ret (some gvList, none)) = _ at hl
      rcases hlp : loadGVLoop c cd version (iter.entries gvRange.Start gvRange.Limit) []
        with (⟨err | gvList⟩ | r)
      · simp [hlp] at hl
      · simp only [hlp, Outcome.ret.injEq, Prod.mk.injEq, Option.some.injEq] at hl
        have := hloop.1 gvList hlp
        simp only [List.map_nil, List.nil_append] at this
        rw [← hl.1, this]
        exact ⟨rfl, hsorted⟩
      · simp [hlp] at hl
    · intro hall
      obtain ⟨l, hl⟩ := hloop.2 hall
      refine ⟨l, ?_⟩
      unfold loadIISSGovernanceVariable
      simp only [hit]
      change (match loadGVLoop c cd version (iter.entries gvRange.Start gvRange.Limit) []
        with
        | .panicked r => Outcome.panicked r
        | .ret (.error err) => .ret (none, some err)
        | .ret (.ok gvList) => .ret (some gvList, none)) = _
      rw [hl]

theorem gv_keys_preserve_height_order_witness :
    (∃ k1 k2, ({ IISSGovernanceVariable.new with BlockHeight := 255 }).ID refCommon = some k1
      ∧ ({ IISSGovernanceVariable.new with BlockHeight := 256 }).ID refCommon = some k2
      ∧ bytesLt k1 k2 = true) ∧
    (∃ l, loadIISSGovernanceVariable refCommon refCodec (memDB sampleStore none) 2
        = .ret (some l, none)
      ∧ l.map (·.BlockHeight) = [255, 256]) := by
  have T := gv_keys_preserve_height_order refCommon refCodec refCommon_bigEndian
  refine ⟨T.1 _ _ (by decide) (by norm_num), ?_⟩
  obtain ⟨iter, hiter⟩ : ∃ iter, (memDB sampleStore none).GetIterator = (some iter, none) :=
    ⟨_, rfl⟩
  have hent : iter.entries gvRange.Start gvRange.Limit = sampleGVEntries := by
    simp only [memDB, Prod.mk.injEq, Option.some.injEq, and_true] at hiter
    subst hiter
    decide
  have hst : List.Forall₂ (storedAt refCommon) (iter.entries gvRange.Start gvRange.Limit)
      [255, 256] := by
    rw [hent]
    exact List.Forall₂.cons ⟨by norm_num, rfl⟩
      (List.Forall₂.cons ⟨by norm_num, rfl⟩ List.Forall₂.nil)
  have hasc : List.Pairwise (fun a b => bytesLt a.1 b.1 = true)
      (iter.entries gvRange.Start gvRange.Limit) := by
    rw [hent]
    simp [sampleGVEntries, bytesLt]
  obtain ⟨h1, h2⟩ := T.2 (memDB sampleStore none) iter 2 [255, 256] refCommon_decodes
    hiter hst hasc
  obtain ⟨l, hl⟩ := h2 (by
    rw [hent]
    intro e he
    simp only [sampleGVEntries, List.mem_cons, List.mem_singleton,
      List.not_mem_nil, or_false] at he
    rcases he with rfl | rfl <;> rfl)
  exact ⟨l, hl, (h1 l none hl).1⟩

/-! ### Version-gated defaults -/

/-- C2. `IISSHeader.SetBytes` applies the version-gated default: when the bytes decode
to `(Version, BlockHeight, Revision)`, it returns nil and leaves `Version` and
`BlockHeight` as decoded, with `Revision` equal to `IISSDataRevisionDefault` (0) for
version 1 and to the decoded revision for every other version; when decoding fails it
returns that error. -/
theorem header_SetBytes_version_default (cd : Codec) (ih : IISSHeader) (bs : Bytes) :
    (∀ V B R, cd.UnmarshalHeader bs ih = (⟨V, B, R⟩, none) →
      ih.SetBytes cd bs = (⟨V, B, if V = 1 then IISSDataRevisionDefault else R⟩, none)) ∧
    IISSDataRevisionDefault = 0 ∧
    (∀ ih1 err, cd.UnmarshalHeader bs ih = (ih1, some err) →
      (ih.SetBytes cd bs).2 = some err) := by
  refine ⟨fun V B R h => ?_, rfl, fun ih1 err h => ?_⟩
  · unfold IISSHeader.SetBytes
    rw [h]
    by_cases hV : V = 1 <;> simp [hV]
  · unfold IISSHeader.SetBytes
    rw [h]

theorem header_SetBytes_version_default_witness :
    (⟨9, 9, 9⟩ : IISSHeader).SetBytes refCodec [1, 10, 7] = (⟨1, 10, 0⟩, none) ∧
    (⟨9, 9, 9⟩ : IISSHeader).SetBytes refCodec [2, 10, 7] = (⟨2, 10, 7⟩, none) ∧
    ((⟨9, 9, 9⟩ : IISSHeader).SetBytes refCodec []).2 = some "decode error" :=
  ⟨(header_SetBytes_version_default refCodec ⟨9, 9, 9⟩ [1, 10, 7]).1 1 10 7 rfl,
   (header_SetBytes_version_default refCodec ⟨9, 9, 9⟩ [2, 10, 7]).1 2 10 7 rfl,
   (header_SetBytes_version_default refCodec ⟨9, 9, 9⟩ []).2.2 ⟨9, 9, 9⟩ "decode error" rfl⟩

/-- C3. `IISSGovernanceVariable.SetBytes(bs, version)` fills defaults per version and
touches nothing else: when the payload decodes, the call returns nil, `IncentiveRep` and
`RewardRep` are the decoded values for every version, `MainPRepCount` and `SubPRepCount`
are both 0 for version 1 and the decoded values for every other version; and the
`BlockHeight` of the record is unchanged by the call, whether decoding succeeds or not. -/
theorem gv_SetBytes_defaults (cd : Codec) (gv : IISSGovernanceVariable) (bs : Bytes)
    (version : Nat) :
    (∀ d, cd.UnmarshalGVData bs gv.toIISSGVData = (d, none) →
      (gv.SetBytes cd bs version).2 = none ∧
      (gv.SetBytes cd bs version).1.IncentiveRep = d.IncentiveRep ∧
      (gv.SetBytes cd bs version).1.RewardRep = d.RewardRep ∧
      (version = 1 → (gv.SetBytes cd bs version).1.MainPRepCount = 0 ∧
        (gv.SetBytes cd bs version).1.SubPRepCount = 0) ∧
      (version ≠ 1 → (gv.SetBytes cd bs version).1.MainPRepCount = d.MainPRepCount ∧
        (gv.SetBytes cd bs version).1.SubPRepCount = d.SubPRepCount)) ∧
    (gv.SetBytes cd bs version).1.BlockHeight = gv.BlockHeight := by
  constructor
  · intro d h
    unfold IISSGovernanceVariable.SetBytes
    rw [h]
    by_cases hv : version = 1 <;> simp [hv]
  · unfold IISSGovernanceVariable.SetBytes
    rcases h : cd.UnmarshalGVData bs gv.toIISSGVData with ⟨d, _ | err⟩
    · by_cases hv : version = 1 <;> simp [hv]
    · simp

theorem gv_SetBytes_defaults_witness :
    (((⟨⟨0, 0, 0, 0⟩, 77⟩ : IISSGovernanceVariable).SetBytes refCodec [1, 2, 3, 4] 1).1.MainPRepCount
        = 0 ∧
      ((⟨⟨0, 0, 0, 0⟩, 77⟩ : IISSGovernanceVariable).SetBytes refCodec [1, 2, 3, 4] 1).1.SubPRepCount
        = 0) ∧
    (((⟨⟨0, 0, 0, 0⟩, 77⟩ : IISSGovernanceVariable).SetBytes refCodec [1, 2, 3, 4] 2).1.MainPRepCount
        = 3 ∧
      ((⟨⟨0, 0, 0, 0⟩, 77⟩ : IISSGovernanceVariable).SetBytes refCodec [1, 2, 3, 4] 2).1.SubPRepCount
        = 4) :=
  ⟨((gv_SetBytes_defaults refCodec ⟨⟨0, 0, 0, 0⟩, 77⟩ [1, 2, 3, 4] 1).1
      ⟨1, 2, 3, 4⟩ rfl).2.2.2.1 rfl,
   ((gv_SetBytes_defaults refCodec ⟨⟨0, 0, 0, 0⟩, 77⟩ [1, 2, 3, 4] 2).1
      ⟨1, 2, 3, 4⟩ rfl).2.2.2.2 (by decide)⟩

/-! ### Signature coding -/

theorem refCrypto_roundTrip : CryptoRoundTrip refCrypto := by
  intro b sig hb h
  simp only [refCrypto, hb, if_true, Except.ok.injEq] at h
  simp [refCrypto, h]

/-- The two wrappers pass the round trip of package `crypto` through: if the package
serialises a parsed 65-byte RSV string back to itself, then for every 65-byte string `b`
that `crypto.ParseSignature` accepts, `MarshalBinary` of the resulting `Signature`
succeeds, `UnmarshalBinary` of the marshalled bytes into a fresh `Signature` succeeds,
and `SerializeRSV` of the decoded signature returns `b`. Whether the package has that
property is not decided here: its source is not part of the excerpt. -/
theorem signature_binary_roundtrip {Sig : Type} (cr : Crypto Sig) (hcr : CryptoRoundTrip cr)
    (b : Bytes) (sig0 : Sig) (hb : b.length = 65) (hparse : cr.ParseSignature b = .ok sig0) :
    ∃ sigBS sig2,
      Signature.MarshalBinary cr ⟨some sig0⟩ = .ret (.ok sigBS) ∧
      Signature.UnmarshalBinary cr ⟨none⟩ sigBS = (sig2, none) ∧
      sig2.SerializeRSV cr = .ret (.ok b) := by
  have hser := hcr b sig0 hb hparse
  refine ⟨b, ⟨some sig0⟩, ?_, ?_, ?_⟩
  · simp [Signature.MarshalBinary, Signature.SerializeRSV, hser]
  · simp [Signature.UnmarshalBinary, hparse]
  · simp [Signature.SerializeRSV, hser]

theorem signature_binary_roundtrip_witness :
    ∃ sigBS sig2,
      Signature.MarshalBinary refCrypto ⟨some obs⟩ = .ret (.ok sigBS) ∧
      Signature.UnmarshalBinary refCrypto ⟨none⟩ sigBS = (sig2, none) ∧
      sig2.SerializeRSV refCrypto = .ret (.ok obs) :=
  signature_binary_roundtrip refCrypto refCrypto_roundTrip obs obs rfl rfl

/-! ### The CALCULATE client -/

/-- The acknowledgment arrives, then a second message of type `MsgReady` (not
`MsgCalculateDone`) with correlation id 8 while the client sent 7, and with a receive
error: the client still prints it as the calculation result. -/
theorem calculate_reports_result_despite_id_and_error :
    (CLI.calculate sampleMsgTypes (scriptedConn Nat) ⟨7⟩
        [⟨sampleMsgTypes.MsgCalculate, 7, none, none⟩,
         ⟨sampleMsgTypes.MsgReady, 8, some "broken pipe", some 55⟩]
        "iiss_rc_db_100" 100 0).2 = Printed.calculateResult 55 ∧
    sampleMsgTypes.MsgReady ≠ sampleMsgTypes.MsgCalculateDone ∧
    (8 : Nat) ≠ (⟨7⟩ : CLI).id ∧
    (some "broken pipe" : Option Err) ≠ none := by
  refine ⟨rfl, by decide, by decide, by simp⟩

/-- What the code of `calculate` does: it performs two receive events, the one inside
`SendAndReceive(MsgCalculate, cli.id, req, resp)` and one `Receive` after it, and leaves
the connection in the state after the second. What it prints is decided by comparing the
type of the second message with `MsgReady`; neither the correlation id nor either of the
two errors enters the decision. -/
theorem calculate_reports_by_message_type {σ Resp : Type} (M : MsgTypes)
    (conn : Connection σ Resp) (cli : CLI) (s s1 s2 : σ) (iissData : String)
    (blockHeight : Nat) (resp resp1 resp2 : Resp) (ackErr recvErr : Option Err)
    (msg id : Nat)
    (hack : conn.SendAndReceive s M.MsgCalculate cli.id ⟨iissData, blockHeight⟩ resp
      = (s1, resp1, ackErr))
    (hrecv : conn.Receive s1 resp1 = (s2, resp2, msg, id, recvErr)) :
    (CLI.calculate M conn cli s iissData blockHeight resp).1 = s2 ∧
    (msg = M.MsgReady →
      (CLI.calculate M conn cli s iissData blockHeight resp).2 = .calculateResult resp2) ∧
    (msg ≠ M.MsgReady →
      (CLI.calculate M conn cli s iissData blockHeight resp).2
        = .invalidResponse msg id) := by
  unfold CLI.calculate
  simp only [hack, hrecv]
  by_cases h : msg = M.MsgReady <;> simp [h]

theorem calculate_reports_by_message_type_witness :
    (CLI.calculate sampleMsgTypes (scriptedConn Nat) ⟨7⟩
        [⟨sampleMsgTypes.MsgCalculate, 7, none, none⟩,
         ⟨2, 7, none, some 55⟩]
        "iiss_rc_db_100" 100 0).2 = Printed.invalidResponse 2 7 :=
  (calculate_reports_by_message_type sampleMsgTypes (scriptedConn Nat) ⟨7⟩
    [⟨sampleMsgTypes.MsgCalculate, 7, none, none⟩, ⟨2, 7, none, some 55⟩]
    [⟨2, 7, none, some 55⟩] []
    "iiss_rc_db_100" 100 0 0 55 none none 2 7 rfl rfl).2.2 (by decide)

/-- C5 fails on the code. The client compares the type of the second message with
`MsgReady`, although the comment above the call says `Get CALCULATE_DONE`. After the
acknowledgment, a well-formed `CALCULATE_DONE` that carries the correlation id the client
sent (7) and comes without a receive error is printed as an invalid response; and a
message of type `MsgReady` with the correlation id 8 and a receive error is printed as the
calculation result. -/
theorem calculate_prints_calculate_done_as_invalid :
    (CLI.calculate sampleMsgTypes (scriptedConn Nat) ⟨7⟩
        [⟨sampleMsgTypes.MsgCalculate, 7, none, none⟩,
         ⟨sampleMsgTypes.MsgCalculateDone, 7, none, some 55⟩]
        "iiss_rc_db_100" 100 0).2
      = Printed.invalidResponse sampleMsgTypes.MsgCalculateDone 7 ∧
    (CLI.calculate sampleMsgTypes (scriptedConn Nat) ⟨7⟩
        [⟨sampleMsgTypes.MsgCalculate, 7, none, none⟩,
         ⟨sampleMsgTypes.MsgReady, 8, some "broken pipe", some 55⟩]
        "iiss_rc_db_100" 100 0).2 = Printed.calculateResult 55 := by
  constructor
  · decide
  · decide

/-! ### Bolt buckets -/

/-- C6. Bucket lookup of an absent key is a "no value" result, not an error: on an open
bolt store whose bucket exists, `Get` of a key that is not stored returns `(nil, nil)`;
and for every key (and every state of the store), `Has(key)` is true exactly when
`Get(key)` returns a non-nil value together with a nil error, and false exactly when `Get`
returns anything else. An error that `Get` does return is the same for every key, so it
never comes from the key being absent. -/
theorem boltBucket_absent_key_is_no_value (bucket : boltBucket) (key : Bytes) :
    (∀ b, bucket.db.opened = true → bucket.db.Bucket bucket.id = some b →
      boltGet b key = none → bucket.Get key = .ret (none, none)) ∧
    (bucket.Has key = .ret true ↔ ∃ v, bucket.Get key = .ret (some v, none)) ∧
    (bucket.Has key = .ret false ↔
      ∃ value err, bucket.Get key = .ret (value, err) ∧ ¬ (value ≠ none ∧ err = none)) ∧
    (∀ value err key2, bucket.Get key = .ret (value, some err) →
      bucket.Get key2 = .ret (none, some err)) := by
  refine ⟨fun b ho hb hk => ?_, ?_, ?_, ?_⟩
  · simp [boltBucket.Get, ho, hb, hk]
  · unfold boltBucket.Has
    rcases hg : bucket.Get key with ⟨value, err⟩ | r
    · cases value <;> cases err <;> simp
    · simp
  · unfold boltBucket.Has
    rcases hg : bucket.Get key with ⟨value, err⟩ | r
    · cases value <;> cases err <;> simp
      · exact ⟨none, none, ⟨rfl, rfl⟩, fun h => absurd rfl h⟩
      · exact ⟨none, _, ⟨rfl, rfl⟩, fun h => absurd rfl h⟩
      · exact ⟨_, _, ⟨rfl, rfl⟩, fun _ => by simp⟩
    · simp
  · intro value err key2 h
    unfold boltBucket.Get at h ⊢
    by_cases ho : bucket.db.opened = true
    · simp only [ho, if_true] at h
      rcases hb : bucket.db.Bucket bucket.id with _ | b
      · simp [hb] at h
      · simp [hb] at h
    · simp only [ho] at h ⊢
      simp only [Bool.false_eq_true, if_false, Outcome.ret.injEq, Prod.mk.injEq,
        Option.some.injEq] at h ⊢
      exact ⟨trivial, h.2⟩

theorem boltBucket_absent_key_is_no_value_witness :
    (⟨PrefixIISSGV, sampleBolt⟩ : boltBucket).Get [2] = .ret (none, none) ∧
    (⟨PrefixIISSGV, sampleBolt⟩ : boltBucket).Has [1] = .ret true :=
  ⟨(boltBucket_absent_key_is_no_value ⟨PrefixIISSGV, sampleBolt⟩ [2]).1
      [([1], [42])] rfl rfl rfl,
   (boltBucket_absent_key_is_no_value ⟨PrefixIISSGV, sampleBolt⟩ [1]).2.1.mpr ⟨[42], rfl⟩⟩

/-! ### Opening a store -/

/-- C7, as stated, fails. With no backend registered, `Open` does not hand an error to
its caller: it panics. -/
theorem Open_unknown_backend_panics :
    Open (fun _ => none) "/data" BoltDBBackend "iiss"
      = .panicked (.unknownBackend BoltDBBackend) := rfl

/-- C7, amended. `Open(dir, dbtype, name)` has no error result. It panics exactly when
the requested backend tag is not in the registry or the registered creator, called with
`(name, dir)`, returns an error; the panic names the unknown tag, or carries the
creator's error. In every other case it returns precisely the `Database` produced by the
creator registered for `dbtype`, called with `(name, dir)`. -/
theorem Open_panics_or_returns_created (backends : Backends) (dir : String)
    (dbtype : BackendType) (name : String) :
    ((∃ r, Open backends dir dbtype name = .panicked r) ↔
      (backends dbtype = none ∨
        ∃ creator, backends dbtype = some creator ∧ (creator name dir).2 ≠ none)) ∧
    (backends dbtype = none →
      Open backends dir dbtype name = .panicked (.unknownBackend dbtype)) ∧
    (∀ creator err, backends dbtype = some creator → (creator name dir).2 = some err →
      Open backends dir dbtype name = .panicked (.initError err)) ∧
    (∀ creator, backends dbtype = some creator → (creator name dir).2 = none →
      Open backends dir dbtype name = .ret (creator name dir).1) := by
  unfold Open openDatabase
  rcases hb : backends dbtype with _ | creator
  · simp
  · rcases hc : creator name dir with ⟨db, _ | err⟩
    · simp only [hc]
      refine ⟨by simp [hc], by simp, ?_, ?_⟩
      · intro c1 e1 h1 h2
        rw [← Option.some.inj h1, hc] at h2
        simp at h2
      · intro c1 h1 _
        rw [← Option.some.inj h1, hc]
    · simp only [hc]
      refine ⟨by simp [hc], by simp, ?_, ?_⟩
      · intro c1 e1 h1 h2
        rw [← Option.some.inj h1, hc] at h2
        simp only [Option.some.injEq] at h2
        rw [h2]
      · intro c1 h1 h2
        rw [← Option.some.inj h1, hc] at h2
        simp at h2

theorem Open_panics_or_returns_created_witness :
    Open (registerDBCreator (fun _ => none) BoltDBBackend
        (fun _ _ => (some (memDB sampleStore none), none)) false) "/data" BoltDBBackend "iiss"
      = .ret (some (memDB sampleStore none)) ∧
    Open (registerDBCreator (fun _ => none) BoltDBBackend
        (fun _ _ => (none, some "permission denied")) false) "/data" BoltDBBackend "iiss"
      = .panicked (.initError "permission denied") ∧
    Open (registerDBCreator (fun _ => none) BoltDBBackend
        (fun _ _ => (none, some "permission denied")) false) "/data" GoLevelDBBackend "iiss"
      = .panicked (.unknownBackend GoLevelDBBackend) :=
  ⟨(Open_panics_or_returns_created _ "/data" BoltDBBackend "iiss").2.2.2
      (fun _ _ => (some (memDB sampleStore none), none)) (by simp [registerDBCreator]) rfl,
   (Open_panics_or_returns_created _ "/data" BoltDBBackend "iiss").2.2.1
      (fun _ _ => (none, some "permission denied")) "permission denied"
      (by simp [registerDBCreator]) rfl,
   (Open_panics_or_returns_created _ "/data" GoLevelDBBackend "iiss").2.1
      (by simp [registerDBCreator, BoltDBBackend, GoLevelDBBackend])⟩

/-! ### Iterators and batches of the bolt backend -/

/-- C8 fails on the bolt backend. The backend registered by `init` is opened
successfully, and its `GetIterator`, `GetBatch` and `GetSnapshot` all return a nil object
together with a nil error; `loadIISSGovernanceVariable` then calls `iter.New` on the nil
iterator and panics. -/
theorem boltdb_nil_iterator_with_nil_error :
    Open (boltInit (fun _ _ => .ok sampleBolt) (fun _ => none)) "/data" BoltDBBackend "iiss"
      = .ret (some (BoltDB.toDatabase ⟨sampleBolt⟩)) ∧
    (BoltDB.toDatabase ⟨sampleBolt⟩).GetIterator = (none, none) ∧
    (BoltDB.toDatabase ⟨sampleBolt⟩).GetBatch = (none, none) ∧
    BoltDB.GetSnapshot ⟨sampleBolt⟩ = (none, none) ∧
    loadIISSGovernanceVariable refCommon refCodec (BoltDB.toDatabase ⟨sampleBolt⟩) 2
      = .panicked .nilDereference :=
  ⟨rfl, rfl, rfl, rfl, rfl⟩

/-- For every bolt database, `GetIterator` returns `(nil, nil)` and the loader panics. -/
theorem BoltDB_loader_panics (db : BoltDB) (c : Common) (cd : Codec) (version : Nat) :
    db.toDatabase.GetIterator = (none, none) ∧
    loadIISSGovernanceVariable c cd db.toDatabase version = .panicked .nilDereference :=
  ⟨rfl, rfl⟩

/-! ### Errors while loading the governance variables -/

/-- C9 fails on the code. The iterator of the snapshot reports an error after the
iteration, yet `loadIISSGovernanceVariable` returns the list read so far with a nil
error, and `LoadIISSData` returns the header and the lists instead of `(nil, nil, nil)`. -/
theorem loader_returns_list_despite_iterator_error :
    (∃ iter, (memDB sampleStore (some "leveldb: corruption")).GetIterator = (some iter, none)
      ∧ iter.Error gvRange.Start gvRange.Limit = some "leveldb: corruption") ∧
    loadIISSGovernanceVariable refCommon refCodec
        (memDB sampleStore (some "leveldb: corruption")) 2
      = .ret (some [⟨⟨1, 2, 3, 4⟩, 255⟩, ⟨⟨5, 6, 7, 8⟩, 256⟩], none) ∧
    LoadIISSData refCommon refCodec (fun _ => .ret (some ([] : List Nat), none))
        (memDB sampleStore (some "leveldb: corruption"))
      = .ret (some ⟨2, 100, 5⟩, some [⟨⟨1, 2, 3, 4⟩, 255⟩, ⟨⟨5, 6, 7, 8⟩, 256⟩], some []) := by
  refine ⟨⟨_, rfl, rfl⟩, ?_, ?_⟩
  · decide
  · decide

/-- The result of `loadIISSGovernanceVariable` does not depend on what `iter.Error()`
returns. -/
theorem loader_ignores_iterator_error (c : Common) (cd : Codec) (version : Nat)
    (iissDB : Database) (iter : Iterator) (anyError : Bytes → Option Bytes → Option Err)
    (h : iissDB.GetIterator = (some iter, none)) :
    loadIISSGovernanceVariable c cd
        { iissDB with GetIterator := (some { iter with Error := anyError }, none) } version
      = loadIISSGovernanceVariable c cd iissDB version := by
  unfold loadIISSGovernanceVariable
  simp only [h]

/-- The error of `GetIterator`, and the error of the first record that fails to decode,
are returned by `loadIISSGovernanceVariable` with a nil list. -/
theorem loader_returns_decode_error (c : Common) (cd : Codec) (version : Nat)
    (iissDB : Database) :
    (∀ it err, iissDB.GetIterator = (it, some err) →
      loadIISSGovernanceVariable c cd iissDB version = .ret (none, some err)) ∧
    (∀ iter key value rest gv err, iissDB.GetIterator = (some iter, none) →
      iter.entries gvRange.Start gvRange.Limit = (key, value) :: rest →
      IISSGovernanceVariable.new.SetBytes cd value version = (gv, some err) →
      loadIISSGovernanceVariable c cd iissDB version = .ret (none, some err)) := by
  constructor
  · intro it err h
    unfold loadIISSGovernanceVariable
    rw [h]
    cases it <;> rfl
  · intro iter key value rest gv err h hent hdec
    unfold loadIISSGovernanceVariable
    simp only [h]
    change (match loadGVLoop c cd version (iter.entries gvRange.Start gvRange.Limit) []
      with
      | .panicked r => Outcome.panicked r
      | .ret (.error err) => .ret (none, some err)
      | .ret (.ok gvList) => .ret (some gvList, none)) = _
    rw [hent]
    simp [loadGVLoop, hdec]

/-! ### The delegation list of a transaction -/

theorem delegationLoop_eq (ds : List PRepDelegationInfo) :
    ∀ (delegation : List (List Elem)) (dgData : List Elem),
      delegationLoop ds delegation dgData
        = delegation ++ (List.range ds.length).map
            (fun i => dgData ++ (ds.take (i + 1)).flatMap delegationPair) := by
  induction ds with
  | nil => intro delegation dgData; simp [delegationLoop]
  | cons dg rest ih =>
    intro delegation dgData
    simp only [delegationLoop, ih, List.length_cons, List.range_succ_eq_map, List.map_cons,
      List.map_map, List.append_assoc]
    simp [delegationPair, Function.comp_def]

/-- What `WriteIISSTX` hands to `common.EncodeAny` for `n` delegations: `n` entries, and
entry `i` is the concatenation of the pairs of the delegations `0..i`. -/
theorem encodeAnyArg_entries (ds : List PRepDelegationInfo) :
    ∃ delegation, WriteIISSTX.encodeAnyArg TXDataTypeDelegate ds = some delegation ∧
      delegation.length = ds.length ∧
      ∀ i, i < ds.length →
        delegation[i]? = some ((ds.take (i + 1)).flatMap delegationPair) := by
  refine ⟨delegationLoop ds [] [], by simp [WriteIISSTX.encodeAnyArg], ?_, ?_⟩
  · simp [delegationLoop_eq]
  · intro i hi
    simp [delegationLoop_eq, hi]

/-- C10 fails on the code from the second delegation on. For the two delegations
`(address 1, amount 10)` and `(address 2, amount 20)` the object handed to
`common.EncodeAny` has two entries, but entry 1 is the four-element sequence
`[address 1, 10, address 2, 20]`, not the pair `[address 2, 20]`. -/
theorem encodeAnyArg_second_entry_accumulates :
    WriteIISSTX.encodeAnyArg TXDataTypeDelegate [⟨[1], 10⟩, ⟨[2], 20⟩]
      = some [[.address [1], .uint64 10],
              [.address [1], .uint64 10, .address [2], .uint64 20]] ∧
    ([.address [1], .uint64 10, .address [2], .uint64 20] : List Elem)
      ≠ delegationPair ⟨[2], 20⟩ := by
  constructor
  · decide
  · decide

/-! ### Fixed-width record keys -/

theorem beValue_snoc (bs : Bytes) (b : Nat) : beValue (bs ++ [b]) = beValue bs * 256 + b := by
  rw [beValue_append]
  simp [beValue]

theorem minimalBigEndian_spec (n : Nat) :
    ∀ v, v < 256 ^ n → (minimalBigEndian n v).length ≤ n ∧ validBytes (minimalBigEndian n v)
      ∧ beValue (minimalBigEndian n v) = v := by
  induction n with
  | zero =>
    intro v hv
    have : v = 0 := by simpa using hv
    subst this
    exact ⟨le_refl _, fun b hb => by simp [minimalBigEndian] at hb, rfl⟩
  | succ n ih =>
    intro v hv
    unfold minimalBigEndian
    by_cases h0 : v = 0
    · subst h0
      exact ⟨by simp, fun b hb => by simp at hb, rfl⟩
    · have hdiv : v / 256 < 256 ^ n := by
        rw [pow_succ] at hv
        exact Nat.div_lt_of_lt_mul (by rw [Nat.mul_comm]; exact hv)
      obtain ⟨h1, h2, h3⟩ := ih (v / 256) hdiv
      simp only [h0, if_false]
      refine ⟨by simp; exact h1, ?_, ?_⟩
      · refine validBytes_append.mpr ⟨h2, ?_⟩
        intro b hb
        rw [List.mem_singleton.mp hb]
        exact Nat.mod_lt _ (by decide)
      · rw [beValue_snoc, h3]
        omega

theorem specCommon_bigEndian : BigEndianAtMost8 specCommon.Uint64ToBytes := by
  intro v hv
  exact minimalBigEndian_spec 8 v (by norm_num at hv ⊢; exact hv)

theorem specCommon_decodes : DecodesBigEndian8 specCommon.BytesToUint64 := by
  intro bs hl hv
  have := beValue_lt bs hv
  rw [hl] at this
  simp only [specCommon]
  exact Nat.mod_eq_of_lt (by norm_num at this ⊢; exact this)

/-- What the code of `ID()` does for any helper, with no assumption on it: the three
`ID()` functions give one and the same result for one value; the slice expression is out
of range exactly when `common.Uint64ToBytes` returns more than 8 bytes; and a key that is
computed has length exactly 8 and is the helper's bytes left-padded with zero bytes. -/
theorem record_keys_coincide {Obj : Type} (c : Common) (v : Nat)
    (gv : IISSGovernanceVariable) (bp : IISSBlockProduceInfo) (tx : IISSTX Obj)
    (hgv : gv.BlockHeight = v) (hbp : bp.BlockHeight = v) (htx : tx.Index = v) :
    bp.ID c = gv.ID c ∧ tx.ID c = gv.ID c ∧
    (gv.ID c = none ↔ 8 < (c.Uint64ToBytes v).length) ∧
    (∀ k, gv.ID c = some k →
      k.length = 8 ∧
      k = List.replicate (8 - (c.Uint64ToBytes v).length) 0 ++ c.Uint64ToBytes v) := by
  have h1 : bp.ID c = gv.ID c := by
    unfold IISSBlockProduceInfo.ID IISSGovernanceVariable.ID
    rw [hgv, hbp]
  have h2 : tx.ID c = gv.ID c := by
    unfold IISSTX.ID IISSGovernanceVariable.ID
    rw [hgv, htx]
  refine ⟨h1, h2, ?_, ?_⟩
  · unfold IISSGovernanceVariable.ID
    rw [hgv]
    by_cases hl : (c.Uint64ToBytes v).length ≤ 8
    · simp only [List.length_replicate, hl, if_true]
      constructor
      · intro h; simp at h
      · intro h; omega
    · simp only [List.length_replicate, hl, if_false]
      constructor
      · intro _; omega
      · intro _; trivial
  · intro k hk
    unfold IISSGovernanceVariable.ID at hk
    rw [hgv] at hk
    by_cases hl : (c.Uint64ToBytes v).length ≤ 8
    · simp only [List.length_replicate, hl, if_true] at hk
      rw [leftPad_eq 8 _ hl] at hk
      have hk2 := (Option.some.inj hk).symm
      refine ⟨?_, hk2⟩
      rw [hk2]
      simp
      omega
    · simp only [List.length_replicate, hl, if_false] at hk
      simp at hk

/-- Record keys under helpers that are big-endian with at most 8 bytes: when
`common.Uint64ToBytes` yields the big-endian bytes of the value, at most 8 of them, and
`common.BytesToUint64` reads 8 bytes big-endian, then for every `uint64` value `v` the
`ID()` of an `IISSGovernanceVariable` with `BlockHeight = v`, of an `IISSBlockProduceInfo`
with `BlockHeight = v` and of an `IISSTX` with `Index = v` are computed without slicing out
of range and are one and the same byte string; it has length exactly 8, it is the
big-endian value left-padded with zero bytes, and `common.BytesToUint64` of it is `v`,
also when it is cut out of the stored key the way `loadIISSGovernanceVariable` does. -/
theorem record_keys_fixed_width {Obj : Type} (c : Common)
    (hu : BigEndianAtMost8 c.Uint64ToBytes) (hd : DecodesBigEndian8 c.BytesToUint64)
    (v : Nat) (hv : v < 2 ^ 64)
    (gv : IISSGovernanceVariable) (bp : IISSBlockProduceInfo) (tx : IISSTX Obj)
    (hgv : gv.BlockHeight = v) (hbp : bp.BlockHeight = v) (htx : tx.Index = v) :
    ∃ k, gv.ID c = some k ∧ bp.ID c = some k ∧ tx.ID c = some k ∧
      k.length = 8 ∧
      k = List.replicate (8 - (c.Uint64ToBytes v).length) 0 ++ c.Uint64ToBytes v ∧
      beValue k = v ∧
      c.BytesToUint64 k = v ∧
      c.BytesToUint64 ((internalKey PrefixIISSGV k).drop PrefixIISSGV.length) = v := by
  obtain ⟨hl, hvld, hval⟩ := hu v hv
  have hlen : (List.replicate (8 - (c.Uint64ToBytes v).length) 0
      ++ c.Uint64ToBytes v).length = 8 := by
    simp; omega
  have hvalid : validBytes (List.replicate (8 - (c.Uint64ToBytes v).length) 0
      ++ c.Uint64ToBytes v) :=
    validBytes_append.mpr ⟨validBytes_replicate_zero _, hvld⟩
  have hbe : beValue (List.replicate (8 - (c.Uint64ToBytes v).length) 0
      ++ c.Uint64ToBytes v) = v := by
    rw [beValue_append, beValue_replicate_zero, hval]; simp
  have hdec := hd _ hlen hvalid
  refine ⟨_, ?_, ?_, ?_, hlen, rfl, hbe, by rw [hdec, hbe], ?_⟩
  · unfold IISSGovernanceVariable.ID
    rw [hgv]
    simp only [List.length_replicate, hl, if_true]
    rw [leftPad_eq 8 _ hl]
  · unfold IISSBlockProduceInfo.ID
    rw [hbp]
    simp only [List.length_replicate, hl, if_true]
    rw [leftPad_eq 8 _ hl]
  · unfold IISSTX.ID
    rw [htx]
    simp only [List.length_replicate, hl, if_true]
    rw [leftPad_eq 8 _ hl]
  · rw [internalKey_eq, List.drop_left, hdec, hbe]

theorem record_keys_fixed_width_witness :
    ∃ k, (⟨⟨0, 0, 0, 0⟩, 258⟩ : IISSGovernanceVariable).ID specCommon = some k ∧
      (⟨⟨[], []⟩, 258⟩ : IISSBlockProduceInfo).ID specCommon = some k ∧
      (⟨⟨[], 0, 0, none⟩, 258⟩ : IISSTX Nat).ID specCommon = some k ∧
      k.length = 8 ∧
      k = List.replicate (8 - (specCommon.Uint64ToBytes 258).length) 0
        ++ specCommon.Uint64ToBytes 258 ∧
      beValue k = 258 ∧
      specCommon.BytesToUint64 k = 258 ∧
      specCommon.BytesToUint64 ((internalKey PrefixIISSGV k).drop PrefixIISSGV.length)
        = 258 :=
  record_keys_fixed_width specCommon specCommon_bigEndian specCommon_decodes 258
    (by norm_num) ⟨⟨0, 0, 0, 0⟩, 258⟩ ⟨⟨[], []⟩, 258⟩ ⟨⟨[], 0, 0, none⟩, 258⟩ rfl rfl rfl

/-- The key of the value 258 under the modelled helpers: six zero bytes, then 1 and 2. -/
theorem ID_of_258 :
    (⟨⟨0, 0, 0, 0⟩, 258⟩ : IISSGovernanceVariable).ID specCommon
      = some [0, 0, 0, 0, 0, 0, 1, 2] := by
  decide

/-- Without the bound of 8 bytes the slice expression of `ID()` is out of range: a helper
that returns 9 bytes makes `ID()` panic. -/
theorem ID_out_of_range_for_nine_bytes :
    (⟨⟨0, 0, 0, 0⟩, 2 ^ 63⟩ : IISSGovernanceVariable).ID
      ⟨fun _ => [0, 128, 0, 0, 0, 0, 0, 0, 0], fun bs => beValue bs⟩ = none := by
  decide

/-! ### Registering a backend -/

/-- C13. After `registerDBCreator(b, c, force)` the backend `b` is registered; its creator
is `c` if `force` is true or `b` was not registered before, and is the previously
registered creator if `force` is false and `b` was already registered; the entry of every
other backend is unchanged. -/
theorem registerDBCreator_spec (backends : Backends) (b : BackendType) (c : dbCreator)
    (force : Bool) :
    (registerDBCreator backends b c force b).isSome = true ∧
    (force = true ∨ backends b = none → registerDBCreator backends b c force b = some c) ∧
    (∀ prev, force = false → backends b = some prev →
      registerDBCreator backends b c force b = some prev) ∧
    (∀ other, other ≠ b → registerDBCreator backends b c force other = backends other) := by
  unfold registerDBCreator
  cases force <;> rcases hb : backends b with _ | prev <;> simp [hb]
  all_goals
    intro other ho
    simp [ho]

theorem registerDBCreator_spec_witness :
    registerDBCreator (registerDBCreator (fun _ => none) BoltDBBackend
        (fun _ _ => (none, some "first")) false) BoltDBBackend
        (fun _ _ => (none, some "second")) false BoltDBBackend
      = some (fun _ _ => (none, some "first")) ∧
    registerDBCreator (registerDBCreator (fun _ => none) BoltDBBackend
        (fun _ _ => (none, some "first")) false) BoltDBBackend
        (fun _ _ => (none, some "second")) true BoltDBBackend
      = some (fun _ _ => (none, some "second")) ∧
    registerDBCreator (fun _ => none) BoltDBBackend
        (fun _ _ => (none, some "first")) false GoLevelDBBackend = none :=
  ⟨(registerDBCreator_spec _ BoltDBBackend (fun _ _ => (none, some "second")) false).2.2.1
      (fun _ _ => (none, some "first")) rfl
      ((registerDBCreator_spec (fun _ => none) BoltDBBackend
        (fun _ _ => (none, some "first")) false).2.1 (Or.inr rfl)),
   (registerDBCreator_spec _ BoltDBBackend (fun _ _ => (none, some "second")) true).2.1
      (Or.inl rfl),
   (registerDBCreator_spec (fun _ => none) BoltDBBackend
      (fun _ _ => (none, some "first")) false).2.2.2 GoLevelDBBackend (by decide)⟩

/-! ### Dispatch of the claim backup entries -/

/-- A key shorter than `BlockHeightSize` that is not the management key, with a value that
decodes, makes `newClaimFromBackup` slice out of range. -/
theorem newClaimFromBackup_short_key_panics :
    newClaimFromBackup refBackupLib [1, 2, 3] [5] = .panicked .sliceOutOfRange := by
  decide

/-! ### Removing old snapshots -/

theorem findIISSDataLoop_eq (pfx : String) (files : List FileInfo) :
    ∀ iissData, findIISSDataLoop pfx files iissData
      = iissData ++ files.filter (fun f => f.IsDir && (pfx == "" || HasPrefix f.Name pfx)) := by
  induction files with
  | nil => intro iissData; simp [findIISSDataLoop]
  | cons f files ih =>
    intro iissData
    unfold findIISSDataLoop
    by_cases hd : f.IsDir = true
    · by_cases hp : pfx = ""
      · subst hp
        simp [hd, ih]
      · by_cases hh : HasPrefix f.Name pfx = true
        · simp [hd, hp, hh, ih]
        · simp [hd, hp, hh, ih]
    · simp [hd, ih]

theorem cleanupLoop_mem (Sscanf : String → Option Int) (blockHeight : Int)
    (backups : List FileInfo) :
    ∀ backupBH removed x, x ∈ cleanupLoop Sscanf blockHeight backups backupBH removed →
      x ∈ removed ∨ ∃ f ∈ backups, f.Name = x := by
  induction backups with
  | nil => intro backupBH removed x hx; exact Or.inl (by simpa [cleanupLoop] using hx)
  | cons backup rest ih =>
    intro backupBH removed x hx
    unfold cleanupLoop at hx
    by_cases hlt : scanInto Sscanf backup.Name backupBH < blockHeight
    · simp only [hlt, if_true] at hx
      rcases ih _ _ x hx with h | ⟨f, hf, hfx⟩
      · rcases List.mem_append.mp h with h1 | h1
        · exact Or.inl h1
        · exact Or.inr ⟨backup, List.mem_cons_self _ _, (List.mem_singleton.mp h1).symm⟩
      · exact Or.inr ⟨f, List.mem_cons_of_mem _ hf, hfx⟩
    · simp only [hlt, if_false] at hx
      rcases ih _ _ x hx with h | ⟨f, hf, hfx⟩
      · exact Or.inl h
      · exact Or.inr ⟨f, List.mem_cons_of_mem _ hf, hfx⟩

/-- Whatever the names scan to, `cleanupIISSData` removes only directories of the listing
whose name starts with `"iiss_rc_db_"`. -/
theorem cleanup_removes_only_prefixed_directories
    (ReadDir : String → Except Err (List FileInfo)) (Sscanf : String → Option Int)
    (path x : String) (hx : x ∈ cleanupIISSData ReadDir Sscanf path) :
    ∃ files f, ReadDir (filepathSplit path).1 = .ok files ∧ f ∈ files ∧ f.Name = x ∧
      f.IsDir = true ∧ HasPrefix f.Name IISSDataDBPrefix = true := by
  unfold cleanupIISSData findIISSData at hx
  rcases hr : ReadDir (filepathSplit path).1 with err | files
  · simp [hr] at hx
  · simp only [hr] at hx
    rcases cleanupLoop_mem _ _ _ _ _ x hx with h | ⟨f, hf, hfx⟩
    · simp at h
    · rw [findIISSDataLoop_eq] at hf
      simp only [List.nil_append, List.mem_filter, Bool.and_eq_true, Bool.or_eq_true,
        beq_iff_eq] at hf
      refine ⟨files, f, rfl, hf.1, hfx, hf.2.1, ?_⟩
      rcases hf.2.2 with h | h
      · exact absurd h (by decide)
      · exact h

/-- When the name of every snapshot found scans to a height, the loop removes exactly
the snapshots whose height is below `blockHeight`. -/
theorem cleanupLoop_all_scanned (Sscanf : String → Option Int) (blockHeight : Int)
    (backups : List FileInfo) (hall : ∀ f ∈ backups, (Sscanf f.Name).isSome = true) :
    ∀ backupBH removed, cleanupLoop Sscanf blockHeight backups backupBH removed
      = removed ++ (backups.filter
          (fun f => decide ((Sscanf f.Name).getD 0 < blockHeight))).map (·.Name) := by
  induction backups with
  | nil => intro backupBH removed; simp [cleanupLoop]
  | cons backup rest ih =>
    intro backupBH removed
    have hb := hall backup (List.mem_cons_self _ _)
    have hrest := ih (fun f hf => hall f (List.mem_cons_of_mem _ hf))
    obtain ⟨h, hh⟩ := Option.isSome_iff_exists.mp hb
    unfold cleanupLoop
    simp only [scanInto, hh, Option.getD_some, List.filter_cons]
    by_cases hlt : h < blockHeight
    · simp [hlt, hrest]
    · simp [hlt, hrest]

/-- C14 fails on the code. The directory `iiss_rc_db_tmp`, whose name carries no parsable
height, is removed by `cleanupIISSData("/data/iiss_rc_db_100")`: the failed scan leaves
`backupBH` at the height 50 of the entry before it, or at its initial 0 when it is the
only entry, and both are below 100. -/
theorem cleanup_removes_directory_without_height :
    refSscanf "iiss_rc_db_tmp" = none ∧
    cleanupIISSData (fun _ => .ok sampleListing) refSscanf "/data/iiss_rc_db_100"
      = ["iiss_rc_db_50", "iiss_rc_db_tmp"] ∧
    cleanupIISSData (fun _ => .ok [⟨"iiss_rc_db_tmp", true⟩]) refSscanf
      "/data/iiss_rc_db_100" = ["iiss_rc_db_tmp"] := by
  refine ⟨by decide, by decide, by decide⟩

end RewardCalculator
